import Mathlib

set_option autoImplicit false

/-!
Verification of the Databricks CLI authentication core: profile matching,
profile-file merge semantics, the credential-strategy chain, token
resolution, and auth-error enrichment.
-/

namespace DatabricksCLI

/-! ## Host canonicalization

`canonicalizeHost` in `libs/databrickscfg/profile/profiler.go` delegates to the
SDK's `CanonicalHostName`. The canonicalization authority is external to the
repository; per the spec its contract is that host strings differing only by
scheme, trailing slash, path, or query are mapped to the same value.
-/

/-- Scans a character list for the first occurrence of the scheme separator
"://" and returns the suffix after it, if any. -/
def afterSchemeSep : List Char → Option (List Char)
  | [] => none
  | c :: rest =>
    if c = ':' ∧ rest.take 2 = ['/', '/'] then some (rest.drop 2)
    else afterSchemeSep rest

/-- Drops a leading scheme ("<scheme>://") from a host string, if present. -/
def dropScheme (cs : List Char) : List Char :=
  match afterSchemeSep cs with
  | some rest => rest
  | none => cs

/-- Takes the hostname part of a scheme-less URL: everything before the first
path ('/') or query ('?') separator. -/
def takeHostname : List Char → List Char
  | [] => []
  | c :: rest => if c = '/' ∨ c = '?' then [] else c :: takeHostname rest

/-- Canonical form of a host character list: the hostname with scheme, path,
query and trailing slash stripped, re-prefixed with "https://". -/
def canonChars (cs : List Char) : List Char :=
  if takeHostname (dropScheme cs) = [] then []
  else "https://".data ++ takeHostname (dropScheme cs)

/-- Modelled from the spec: `canonicalizeHost` delegates to the SDK's
`CanonicalHostName` (the SDK is not under src/); the spec's binding contract is
that it normalizes scheme, trailing slash, path and query so that
`"https://x/"`, `"https://x/p?q=1"` and `"x"` are equivalent. -/
def canonicalizeHost (s : String) : String := String.mk (canonChars s.data)

/-! ## Profile data model and matchers (src/libs/databrickscfg/profile/profiler.go) -/

/-- A stored profile record. -/
structure Profile where
  name : String := ""
  host : String := ""
  accountID : String := ""
  workspaceID : String := ""
  isUnifiedHost : Bool := false
  hasClientCredentials : Bool := false
  deriving Repr, DecidableEq

/-- Workspace-profile classification: regular workspace profiles (no account
ID, not unified) or unified hosts with a workspace ID. -/
def MatchWorkspaceProfiles (p : Profile) : Bool :=
  (p.accountID == "" && !p.isUnifiedHost) || (p.isUnifiedHost && p.workspaceID != "")

/-- Account-profile classification: regular account profiles (host plus
account ID, not unified) or unified hosts with an account ID but no
workspace ID. -/
def MatchAccountProfiles (p : Profile) : Bool :=
  (p.host != "" && p.accountID != "" && !p.isUnifiedHost) ||
    (p.isUnifiedHost && p.accountID != "" && p.workspaceID == "")

/-- Matches every profile. -/
def MatchAllProfiles (_ : Profile) : Bool := true

/-- Exact-name set membership. -/
def MatchProfileNames (names : List String) (p : Profile) : Bool :=
  names.contains p.name

/-- Matches a profile by exact name. -/
def WithName (name : String) (p : Profile) : Bool := p.name == name

/-- Matches profiles whose canonical host equals the canonical form of the
given host; profiles with an empty host never match. -/
def WithHost (host : String) (p : Profile) : Bool :=
  p.host != "" && canonicalizeHost p.host == canonicalizeHost host

/-- Matches profiles by both canonical host and exact account ID. -/
def WithHostAndAccountID (host accountID : String) (p : Profile) : Bool :=
  p.host != "" && canonicalizeHost p.host == canonicalizeHost host && p.accountID == accountID

/-! ### Lemmas about canonicalization -/

theorem afterSchemeSep_cons (a : Char) (rest : List Char)
    (h : ¬(a = ':' ∧ rest.take 2 = ['/', '/'])) :
    afterSchemeSep (a :: rest) = afterSchemeSep rest := by
  simp [afterSchemeSep, h]

theorem takeHostname_cons_neg (a : Char) (rest : List Char) (h : ¬(a = '/' ∨ a = '?')) :
    takeHostname (a :: rest) = a :: takeHostname rest := by
  simp [takeHostname, h]

theorem takeHostname_no_sep : ∀ cs : List Char, ∀ c ∈ takeHostname cs, c ≠ '/' ∧ c ≠ '?' := by
  intro cs
  induction cs with
  | nil => intro c hc; simp [takeHostname] at hc
  | cons a rest ih =>
    intro c hc
    by_cases h : a = '/' ∨ a = '?'
    · simp [takeHostname, h] at hc
    · rw [takeHostname_cons_neg a rest h] at hc
      rcases List.mem_cons.mp hc with rfl | hc
      · push_neg at h; exact h
      · exact ih c hc

theorem takeHostname_eq_self {cs : List Char} (h : ∀ c ∈ cs, c ≠ '/' ∧ c ≠ '?') :
    takeHostname cs = cs := by
  induction cs with
  | nil => rfl
  | cons a rest ih =>
    have ha := h a (List.mem_cons_self a rest)
    have hcond : ¬(a = '/' ∨ a = '?') := by push_neg; exact ha
    rw [takeHostname_cons_neg a rest hcond, ih (fun c hc => h c (List.mem_cons_of_mem a hc))]

theorem afterSchemeSep_eq_none {cs : List Char} (h : ':' ∉ cs) : afterSchemeSep cs = none := by
  induction cs with
  | nil => rfl
  | cons a rest ih =>
    have ha : a ≠ ':' := fun e => h (e ▸ List.mem_cons_self a rest)
    rw [afterSchemeSep_cons a rest (fun ⟨e, _⟩ => ha e)]
    exact ih (fun hm => h (List.mem_cons_of_mem a hm))

theorem dropScheme_eq_self {cs : List Char} (h : ':' ∉ cs) : dropScheme cs = cs := by
  simp [dropScheme, afterSchemeSep_eq_none h]

theorem afterSchemeSep_append {s : List Char} (t : List Char) (h : '/' ∉ s) :
    afterSchemeSep (s ++ ':' :: '/' :: '/' :: t) = some t := by
  induction s with
  | nil => simp [afterSchemeSep]
  | cons a s ih =>
    have hs : '/' ∉ s := fun hm => h (List.mem_cons_of_mem a hm)
    have hcond : ¬(a = ':' ∧ (s ++ ':' :: '/' :: '/' :: t).take 2 = ['/', '/']) := by
      rintro ⟨rfl, htake⟩
      cases s with
      | nil => simp at htake
      | cons b s' =>
        have hb : b ≠ '/' := fun e => hs (e ▸ List.mem_cons_self b s')
        simp [List.take] at htake
        exact hb htake.1
    rw [List.cons_append, afterSchemeSep_cons a _ hcond]
    exact ih hs

theorem canonChars_congr {a b : List Char}
    (h : takeHostname (dropScheme a) = takeHostname (dropScheme b)) :
    canonChars a = canonChars b := by
  simp only [canonChars, h]

/-- A canonical host (a "https://"-prefixed clean hostname) is a fixed point
of the canonicalization. -/
theorem canonChars_https (k : List Char) (hk : ∀ c ∈ k, c ≠ '/' ∧ c ≠ '?') (he : k ≠ []) :
    canonChars ('h' :: 't' :: 't' :: 'p' :: 's' :: ':' :: '/' :: '/' :: k) =
      'h' :: 't' :: 't' :: 'p' :: 's' :: ':' :: '/' :: '/' :: k := by
  have hsome : afterSchemeSep ('h' :: 't' :: 't' :: 'p' :: 's' :: ':' :: '/' :: '/' :: k) =
      some k := by
    have h5 := afterSchemeSep_append (s := ['h', 't', 't', 'p', 's']) k (by decide)
    simpa using h5
  have hdrop : dropScheme ('h' :: 't' :: 't' :: 'p' :: 's' :: ':' :: '/' :: '/' :: k) = k := by
    unfold dropScheme
    rw [hsome]
  unfold canonChars
  rw [hdrop, takeHostname_eq_self hk, if_neg he]
  rfl

theorem canonChars_idem (cs : List Char) : canonChars (canonChars cs) = canonChars cs := by
  by_cases he : takeHostname (dropScheme cs) = []
  · have h0 : canonChars cs = [] := by simp only [canonChars, if_pos he]
    rw [h0]
    rfl
  · have h1 : canonChars cs =
        'h' :: 't' :: 't' :: 'p' :: 's' :: ':' :: '/' :: '/' :: takeHostname (dropScheme cs) := by
      unfold canonChars
      rw [if_neg he]
      rfl
    rw [h1]
    exact canonChars_https _ (takeHostname_no_sep _) he

theorem canonicalizeHost_idem (s : String) :
    canonicalizeHost (canonicalizeHost s) = canonicalizeHost s := by
  unfold canonicalizeHost
  exact congrArg String.mk (canonChars_idem s.data)

theorem takeHostname_append {h : List Char} (q : List Char)
    (hh : ∀ c ∈ h, c ≠ '/' ∧ c ≠ '?')
    (hq : q = [] ∨ (∃ t, q = '/' :: t) ∨ (∃ t, q = '?' :: t)) :
    takeHostname (h ++ q) = h := by
  induction h with
  | nil =>
    rcases hq with rfl | ⟨t, rfl⟩ | ⟨t, rfl⟩
    · rfl
    · simp [takeHostname]
    · simp [takeHostname]
  | cons a h' ih =>
    have ha := hh a (List.mem_cons_self a h')
    have hcond : ¬(a = '/' ∨ a = '?') := by push_neg; exact ha
    rw [List.cons_append, takeHostname_cons_neg a _ hcond,
      ih (fun c hc => hh c (List.mem_cons_of_mem a hc))]

/-- With no colon in the hostname and suffix, no scheme separator is found, so
the canonical form of `h ++ q` is that of the bare hostname `h`. -/
theorem canonChars_strip {h q : List Char}
    (hh : ∀ c ∈ h, c ≠ '/' ∧ c ≠ '?' ∧ c ≠ ':')
    (hq : q = [] ∨ (∃ t, q = '/' :: t) ∨ (∃ t, q = '?' :: t))
    (hqc : ':' ∉ q) :
    canonChars (h ++ q) = canonChars h := by
  have hcolon : ':' ∉ h ++ q := by
    intro hm
    rcases List.mem_append.mp hm with hm | hm
    · exact (hh _ hm).2.2 rfl
    · exact hqc hm
  have hcolonh : ':' ∉ h := fun hm => (hh _ hm).2.2 rfl
  apply canonChars_congr
  rw [dropScheme_eq_self hcolon, dropScheme_eq_self hcolonh]
  rw [takeHostname_append q (fun c hc => ⟨(hh c hc).1, (hh c hc).2.1⟩) hq]
  rw [takeHostname_eq_self (fun c hc => ⟨(hh c hc).1, (hh c hc).2.1⟩)]

/-- Prefixing a scheme does not change the canonical form. -/
theorem canonChars_scheme {s h q : List Char}
    (hs : '/' ∉ s)
    (hh : ∀ c ∈ h, c ≠ '/' ∧ c ≠ '?' ∧ c ≠ ':')
    (hq : q = [] ∨ (∃ t, q = '/' :: t) ∨ (∃ t, q = '?' :: t))
    (hqc : ':' ∉ q) :
    canonChars (s ++ ':' :: '/' :: '/' :: (h ++ q)) = canonChars h := by
  have hcolon : ':' ∉ h ++ q := by
    intro hm
    rcases List.mem_append.mp hm with hm | hm
    · exact (hh _ hm).2.2 rfl
    · exact hqc hm
  have hdrop : dropScheme (s ++ ':' :: '/' :: '/' :: (h ++ q)) = h ++ q := by
    simp only [dropScheme, afterSchemeSep_append (h ++ q) hs]
  have h1 : canonChars (s ++ ':' :: '/' :: '/' :: (h ++ q)) = canonChars (h ++ q) :=
    canonChars_congr (by rw [hdrop, dropScheme_eq_self hcolon])
  rw [h1]
  exact canonChars_strip hh hq hqc

/-- C6: `canonicalizeHost` maps all host strings that differ only by scheme,
trailing slash, path, or query to the same value; it is idempotent
(`canon (canon h) = canon h`); and `WithHost h` holds for a profile `p` if and
only if `p.host` is non-empty and `canon p.host` equals `canon h`. -/
theorem claim_C6 :
    (∀ scheme h q : List Char,
      '/' ∉ scheme →
      (∀ c ∈ h, c ≠ '/' ∧ c ≠ '?' ∧ c ≠ ':') →
      (q = [] ∨ (∃ t, q = '/' :: t) ∨ (∃ t, q = '?' :: t)) →
      ':' ∉ q →
      canonicalizeHost (String.mk (scheme ++ ':' :: '/' :: '/' :: (h ++ q))) =
          canonicalizeHost (String.mk h) ∧
        canonicalizeHost (String.mk (h ++ q)) = canonicalizeHost (String.mk h)) ∧
    (∀ s : String, canonicalizeHost (canonicalizeHost s) = canonicalizeHost s) ∧
    (∀ (host : String) (p : Profile),
      WithHost host p = true ↔
        p.host ≠ "" ∧ canonicalizeHost p.host = canonicalizeHost host) := by
  refine ⟨?_, canonicalizeHost_idem, ?_⟩
  · intro scheme h q hs hh hq hqc
    constructor
    · exact congrArg String.mk (canonChars_scheme hs hh hq hqc)
    · exact congrArg String.mk (canonChars_strip hh hq hqc)
  · intro host p
    unfold WithHost
    simp [Bool.and_eq_true, bne_iff_ne, beq_iff_eq]

/-- Witness for C6 at the spec's concrete examples: `"https://w.example.com"`,
`"w.example.com"`, `"https://w.example.com/"` and `"https://w.example.com/p?q=1"`
all canonicalize equal, canonicalization is idempotent on them, and `WithHost`
agrees with canonical-host equality. -/
theorem claim_C6_witness :
    canonicalizeHost "https://w.example.com" = canonicalizeHost "w.example.com" ∧
    canonicalizeHost "https://w.example.com/" = canonicalizeHost "w.example.com" ∧
    canonicalizeHost "https://w.example.com/p?q=1" = canonicalizeHost "w.example.com" ∧
    canonicalizeHost (canonicalizeHost "https://w.example.com/p?q=1") =
      canonicalizeHost "https://w.example.com/p?q=1" ∧
    (WithHost "https://myworkspace.cloud.databricks.com"
        { host := "https://myworkspace.cloud.databricks.com/" } = true ↔
      ("https://myworkspace.cloud.databricks.com/" : String) ≠ "" ∧
      canonicalizeHost "https://myworkspace.cloud.databricks.com/" =
        canonicalizeHost "https://myworkspace.cloud.databricks.com") := by
  refine ⟨?_, ?_, ?_, claim_C6.2.1 "https://w.example.com/p?q=1",
    claim_C6.2.2 "https://myworkspace.cloud.databricks.com"
      { host := "https://myworkspace.cloud.databricks.com/" }⟩
  · exact (claim_C6.1 "https".data "w.example.com".data []
      (by decide) (by decide) (Or.inl rfl) (by decide)).1
  · exact (claim_C6.1 "https".data "w.example.com".data ['/']
      (by decide) (by decide) (Or.inr (Or.inl ⟨[], rfl⟩)) (by decide)).1
  · exact (claim_C6.1 "https".data "w.example.com".data ['/', 'p', '?', 'q', '=', '1']
      (by decide) (by decide) (Or.inr (Or.inl ⟨['p', '?', 'q', '=', '1'], rfl⟩))
      (by decide)).1

/-- C9: the workspace and account profile classification predicates are
mutually exclusive (never both true), but not exhaustive: a non-unified
profile with a non-empty account ID but empty host matches neither. -/
theorem claim_C9 :
    (∀ p : Profile, (MatchWorkspaceProfiles p && MatchAccountProfiles p) = false) ∧
    MatchWorkspaceProfiles { accountID := "abc" } = false ∧
    MatchAccountProfiles { accountID := "abc" } = false := by
  refine ⟨?_, by decide, by decide⟩
  intro p
  unfold MatchWorkspaceProfiles MatchAccountProfiles
  cases hu : p.isUnifiedHost <;> by_cases ha : p.accountID = "" <;>
    by_cases hw : p.workspaceID = "" <;> simp [hu, ha, hw]

/-! ## Resolved configuration and the profile file store

The `SaveToProfile` / `matchOrCreateSection` implementation lives in
`libs/databrickscfg` and is not under src/ (only its tests and callers are),
so the store operations below are modelled from the spec (§4.1, §6).
-/

/-- The per-invocation resolved configuration (the fields of the SDK
`config.Config` used by this core). -/
structure Config where
  host : String := ""
  accountID : String := ""
  workspaceID : String := ""
  profile : String := ""
  authType : String := ""
  token : String := ""
  clusterID : String := ""
  serverlessComputeID : String := ""
  clientID : String := ""
  clientSecret : String := ""
  configFile : String := ""
  scopes : List String := []
  isUnifiedHost : Bool := false
  disableOAuthRefreshToken : Bool := false
  deriving Repr, DecidableEq

/-- A named key→value section of the profile file. -/
structure IniSection where
  name : String := ""
  keys : List (String × String) := []
  deriving Repr, DecidableEq

/-- Looks up a key in a section's key list. -/
def getKey (keys : List (String × String)) (k : String) : Option String :=
  (keys.find? (fun kv => kv.1 == k)).map Prod.snd

/-- Writes or overwrites a key in a section's key list, preserving order. -/
def setKey : List (String × String) → String → String → List (String × String)
  | [], k, v => [(k, v)]
  | kv :: rest, k, v => if kv.1 == k then (k, v) :: rest else kv :: setKey rest k v

/-- Removes a key from a section's key list (no-op when absent). -/
def removeKey (keys : List (String × String)) (k : String) : List (String × String) :=
  keys.filter (fun kv => kv.1 != k)

/-- The recognized profile-file keys, in the order listed by the spec. -/
def allConfigKeys : List String :=
  ["host", "token", "auth_type", "account_id", "cluster_id", "serverless_compute_id",
   "scopes", "client_id", "client_secret", "experimental_is_unified_host", "workspace_id"]

/-- Modelled from the spec: the key/value pairs written by a save — one pair
per populated field of the config, with scopes serialized as a comma-joined
list and the unified-host flag written only when set. -/
def configUpdates (cfg : Config) : List (String × String) :=
  (if cfg.host ≠ "" then [("host", cfg.host)] else []) ++
  (if cfg.token ≠ "" then [("token", cfg.token)] else []) ++
  (if cfg.authType ≠ "" then [("auth_type", cfg.authType)] else []) ++
  (if cfg.accountID ≠ "" then [("account_id", cfg.accountID)] else []) ++
  (if cfg.clusterID ≠ "" then [("cluster_id", cfg.clusterID)] else []) ++
  (if cfg.serverlessComputeID ≠ "" then [("serverless_compute_id", cfg.serverlessComputeID)] else []) ++
  (if cfg.scopes ≠ [] then [("scopes", String.intercalate "," cfg.scopes)] else []) ++
  (if cfg.clientID ≠ "" then [("client_id", cfg.clientID)] else []) ++
  (if cfg.clientSecret ≠ "" then [("client_secret", cfg.clientSecret)] else []) ++
  (if cfg.isUnifiedHost then [("experimental_is_unified_host", "true")] else []) ++
  (if cfg.workspaceID ≠ "" then [("workspace_id", cfg.workspaceID)] else [])

/-- Writes all given key/value pairs into a section, in order. -/
def writeAll (keys : List (String × String)) (updates : List (String × String)) :
    List (String × String) :=
  updates.foldl (fun s kv => setKey s kv.1 kv.2) keys

/-- Removes all given keys from a section, in order. -/
def clearAll (keys : List (String × String)) (clearKeys : List String) :
    List (String × String) :=
  clearKeys.foldl removeKey keys

/-- Modelled from the spec: the merge step of `SaveToProfile` applied to one
section — write/overwrite every populated field's key, leave other keys
untouched, then remove each key named in `clearKeys` (no-op if absent). -/
def saveKeys (keys : List (String × String)) (cfg : Config) (clearKeys : List String) :
    List (String × String) :=
  clearAll (writeAll keys (configUpdates cfg)) clearKeys

/-- The stored account ID of a section (the "account_id" key, or ""). -/
def sectionAccountID (s : IniSection) : String := (getKey s.keys "account_id").getD ""

/-- The stored host of a section (the "host" key, or ""). -/
def sectionHost (s : IniSection) : String := (getKey s.keys "host").getD ""

/-- Whether a section's stored host canonically matches the given host. -/
def sectionMatchesHost (host : String) (s : IniSection) : Bool :=
  sectionHost s != "" && canonicalizeHost (sectionHost s) == canonicalizeHost host

/-- Modelled from the spec: `matchOrCreateSection` resolves the target section
name with this precedence: (1) `cfg.profile` if non-empty (created if absent);
(2) else a single profile matching `cfg.accountID`; (3) else a single profile
matching the canonicalized `cfg.host`; (4) else fail — with
"cannot create new profile: empty section name" when no section matched, and
"multiple profiles matched: <name1>, <name2>" (stored order) when several
host matches exist. -/
def matchOrCreateSection (file : List IniSection) (cfg : Config) : Except String String :=
  if cfg.profile ≠ "" then .ok cfg.profile
  else
    let accMatches :=
      if cfg.accountID ≠ "" then file.filter (fun s => sectionAccountID s == cfg.accountID)
      else []
    match accMatches with
    | [s] => .ok s.name
    | _ =>
      let hostMatches :=
        if cfg.host ≠ "" then file.filter (sectionMatchesHost cfg.host) else []
      match hostMatches with
      | [] => .error "cannot create new profile: empty section name"
      | [s] => .ok s.name
      | ms => .error ("multiple profiles matched: " ++
          String.intercalate ", " (ms.map IniSection.name))

/-- Modelled from the spec: `SaveToProfile` loads-or-creates the file, resolves
the target section, merges the populated fields and removes the cleared keys
in that section, and persists the resulting file. -/
def SaveToProfile (file : List IniSection) (cfg : Config) (clearKeys : List String) :
    Except String (List IniSection) :=
  match matchOrCreateSection file cfg with
  | .error e => .error e
  | .ok name =>
    if (file.find? (fun s => s.name == name)).isSome then
      .ok (file.map (fun s =>
        if s.name == name then { s with keys := saveKeys s.keys cfg clearKeys } else s))
    else
      .ok (file ++ [{ name := name, keys := saveKeys [] cfg clearKeys }])

/-! ### Lemmas about the merge semantics -/

theorem getKey_cons_eq (kv : String × String) (rest : List (String × String)) {k : String}
    (h : kv.1 = k) : getKey (kv :: rest) k = some kv.2 := by
  simp [getKey, List.find?, h]

theorem getKey_cons_ne (kv : String × String) (rest : List (String × String)) {k : String}
    (h : kv.1 ≠ k) : getKey (kv :: rest) k = getKey rest k := by
  have hb : (kv.1 == k) = false := beq_eq_false_iff_ne.mpr h
  simp [getKey, List.find?, hb]

theorem setKey_cons_eq (kv : String × String) (rest : List (String × String)) {k : String}
    (v : String) (h : kv.1 = k) : setKey (kv :: rest) k v = (k, v) :: rest := by
  simp [setKey, h]

theorem setKey_cons_ne (kv : String × String) (rest : List (String × String)) {k : String}
    (v : String) (h : kv.1 ≠ k) : setKey (kv :: rest) k v = kv :: setKey rest k v := by
  simp [setKey, h]

theorem removeKey_cons_eq (kv : String × String) (rest : List (String × String)) {k : String}
    (h : kv.1 = k) : removeKey (kv :: rest) k = removeKey rest k := by
  simp [removeKey, h]

theorem removeKey_cons_ne (kv : String × String) (rest : List (String × String)) {k : String}
    (h : kv.1 ≠ k) : removeKey (kv :: rest) k = kv :: removeKey rest k := by
  simp [removeKey, h]

theorem getKey_setKey_self (keys : List (String × String)) (k v : String) :
    getKey (setKey keys k v) k = some v := by
  induction keys with
  | nil => simp [setKey, getKey, List.find?]
  | cons kv rest ih =>
    by_cases h : kv.1 = k
    · rw [setKey_cons_eq kv rest v h, getKey_cons_eq (k, v) rest rfl]
    · rw [setKey_cons_ne kv rest v h, getKey_cons_ne kv _ h]
      exact ih

theorem getKey_setKey_other (keys : List (String × String)) {k k' : String} (v : String)
    (h : k' ≠ k) : getKey (setKey keys k v) k' = getKey keys k' := by
  induction keys with
  | nil =>
    show getKey [(k, v)] k' = getKey [] k'
    rw [getKey_cons_ne (k, v) [] (Ne.symm h)]
  | cons kv rest ih =>
    by_cases hk : kv.1 = k
    · rw [setKey_cons_eq kv rest v hk,
        getKey_cons_ne (k, v) rest (Ne.symm h),
        getKey_cons_ne kv rest (fun e => h (e.symm.trans hk))]
    · rw [setKey_cons_ne kv rest v hk]
      by_cases hkv : kv.1 = k'
      · rw [getKey_cons_eq kv _ hkv, getKey_cons_eq kv rest hkv]
      · rw [getKey_cons_ne kv _ hkv, getKey_cons_ne kv rest hkv]
        exact ih

theorem getKey_removeKey_self (keys : List (String × String)) (k : String) :
    getKey (removeKey keys k) k = none := by
  induction keys with
  | nil => rfl
  | cons kv rest ih =>
    by_cases h : kv.1 = k
    · rw [removeKey_cons_eq kv rest h]
      exact ih
    · rw [removeKey_cons_ne kv rest h, getKey_cons_ne kv _ h]
      exact ih

theorem getKey_removeKey_other (keys : List (String × String)) {k k' : String}
    (h : k' ≠ k) : getKey (removeKey keys k) k' = getKey keys k' := by
  induction keys with
  | nil => rfl
  | cons kv rest ih =>
    by_cases hk : kv.1 = k
    · rw [removeKey_cons_eq kv rest hk,
        getKey_cons_ne kv rest (fun e => h (e.symm.trans hk))]
      exact ih
    · rw [removeKey_cons_ne kv rest hk]
      by_cases hkv : kv.1 = k'
      · rw [getKey_cons_eq kv _ hkv, getKey_cons_eq kv rest hkv]
      · rw [getKey_cons_ne kv _ hkv, getKey_cons_ne kv rest hkv]
        exact ih

theorem getKey_eq_none_iff (keys : List (String × String)) (k : String) :
    getKey keys k = none ↔ ∀ kv ∈ keys, kv.1 ≠ k := by
  simp [getKey, List.find?_eq_none, beq_iff_eq]

theorem getKey_writeAll_not_mem (L : List (String × String)) :
    ∀ (keys : List (String × String)) {k : String}, k ∉ L.map Prod.fst →
      getKey (writeAll keys L) k = getKey keys k := by
  induction L with
  | nil => intro keys k _; rfl
  | cons kv L ih =>
    intro keys k h
    have hk1 : kv.1 ≠ k := by
      intro e
      exact h (by rw [List.map_cons]; exact e ▸ List.mem_cons_self _ _)
    have hL : k ∉ L.map Prod.fst := by
      intro hm
      exact h (by rw [List.map_cons]; exact List.mem_cons_of_mem _ hm)
    show getKey (writeAll (setKey keys kv.1 kv.2) L) k = getKey keys k
    rw [ih (setKey keys kv.1 kv.2) hL, getKey_setKey_other keys kv.2 (Ne.symm hk1)]

theorem getKey_writeAll_mem (L : List (String × String)) :
    ∀ (keys : List (String × String)) {k v : String}, (L.map Prod.fst).Nodup →
      (k, v) ∈ L → getKey (writeAll keys L) k = some v := by
  induction L with
  | nil => intro _ _ _ _ h; cases h
  | cons kv L ih =>
    intro keys k v hnd hkv
    have hnd' : (kv.1 :: L.map Prod.fst).Nodup := by rw [← List.map_cons]; exact hnd
    show getKey (writeAll (setKey keys kv.1 kv.2) L) k = some v
    rcases List.mem_cons.mp hkv with heq | hmem
    · have hk1 : kv.1 = k := by rw [← heq]
      have hknotin : k ∉ L.map Prod.fst := hk1 ▸ (List.nodup_cons.mp hnd').1
      have hv : kv.2 = v := congrArg Prod.snd heq.symm
      rw [getKey_writeAll_not_mem L _ hknotin, hk1, hv, getKey_setKey_self]
    · exact ih (setKey keys kv.1 kv.2) (List.nodup_cons.mp hnd').2 hmem

theorem getKey_clearAll_not_mem (K : List String) :
    ∀ (keys : List (String × String)) {k : String}, k ∉ K →
      getKey (clearAll keys K) k = getKey keys k := by
  induction K with
  | nil => intro keys k _; rfl
  | cons k1 K ih =>
    intro keys k h
    have hk1 : k ≠ k1 := fun e => h (e ▸ List.mem_cons_self _ _)
    have hK : k ∉ K := fun hm => h (List.mem_cons_of_mem _ hm)
    show getKey (clearAll (removeKey keys k1) K) k = getKey keys k
    rw [ih (removeKey keys k1) hK, getKey_removeKey_other keys hk1]

theorem getKey_clearAll_mem (K : List String) :
    ∀ (keys : List (String × String)) {k : String}, k ∈ K →
      getKey (clearAll keys K) k = none := by
  induction K with
  | nil => intro _ _ h; cases h
  | cons k1 K ih =>
    intro keys k hk
    show getKey (clearAll (removeKey keys k1) K) k = none
    by_cases hmem : k ∈ K
    · exact ih (removeKey keys k1) hmem
    · have hk1 : k = k1 := by
        rcases List.mem_cons.mp hk with h | h
        · exact h
        · exact absurd h hmem
      rw [getKey_clearAll_not_mem K _ hmem, hk1, getKey_removeKey_self]

theorem removeKey_absent {keys : List (String × String)} {k : String}
    (h : getKey keys k = none) : removeKey keys k = keys := by
  rw [getKey_eq_none_iff] at h
  unfold removeKey
  rw [List.filter_eq_self]
  intro kv hm
  simpa using h kv hm

theorem updateChunk_sublist (c : Prop) [Decidable c] (k v : String) :
    List.Sublist ((if c then [(k, v)] else []).map Prod.fst) [k] := by
  by_cases h : c <;> simp [h]

theorem configUpdates_keys_sublist (cfg : Config) :
    List.Sublist ((configUpdates cfg).map Prod.fst) allConfigKeys := by
  have target :
      ((((((((((["host"] ++ ["token"]) ++ ["auth_type"]) ++ ["account_id"]) ++
        ["cluster_id"]) ++ ["serverless_compute_id"]) ++ ["scopes"]) ++ ["client_id"]) ++
        ["client_secret"]) ++ ["experimental_is_unified_host"]) ++ ["workspace_id"]) =
        allConfigKeys := rfl
  rw [← target]
  unfold configUpdates
  simp only [List.map_append]
  exact ((((((((((updateChunk_sublist _ _ _).append (updateChunk_sublist _ _ _)).append
    (updateChunk_sublist _ _ _)).append (updateChunk_sublist _ _ _)).append
    (updateChunk_sublist _ _ _)).append (updateChunk_sublist _ _ _)).append
    (updateChunk_sublist _ _ _)).append (updateChunk_sublist _ _ _)).append
    (updateChunk_sublist _ _ _)).append (updateChunk_sublist _ _ _)).append
    (updateChunk_sublist _ _ _)

theorem configUpdates_keys_nodup (cfg : Config) :
    ((configUpdates cfg).map Prod.fst).Nodup :=
  (configUpdates_keys_sublist cfg).nodup (by decide)

theorem clearAll_append_one (keys : List (String × String)) (K : List String) (k : String) :
    clearAll keys (K ++ [k]) = removeKey (clearAll keys K) k := by
  unfold clearAll
  rw [List.foldl_append]
  rfl

/-- C2: for every call `SaveToProfile(cfg, clearKeys...)`, every populated
field of `cfg` is written under its key (scopes comma-joined), keys not
mentioned by `cfg` keep their existing values, every key in `clearKeys` is
removed with removal of an absent key a no-op, and the result is persisted
into the resolved section of the file. -/
theorem claim_C2 (keys : List (String × String)) (cfg : Config) (clearKeys : List String) :
    (∀ k v, (k, v) ∈ configUpdates cfg → k ∉ clearKeys →
      getKey (saveKeys keys cfg clearKeys) k = some v) ∧
    (∀ k, k ∈ clearKeys → getKey (saveKeys keys cfg clearKeys) k = none) ∧
    (∀ k, k ∉ (configUpdates cfg).map Prod.fst → k ∉ clearKeys →
      getKey (saveKeys keys cfg clearKeys) k = getKey keys k) ∧
    (∀ k, getKey (saveKeys keys cfg clearKeys) k = none →
      saveKeys keys cfg (clearKeys ++ [k]) = saveKeys keys cfg clearKeys) ∧
    (∀ file : List IniSection, cfg.profile ≠ "" →
      ∃ file', SaveToProfile file cfg clearKeys = .ok file' ∧
        ∃ s ∈ file', s.name = cfg.profile ∧
          s.keys = saveKeys
            (((file.find? (fun t => t.name == cfg.profile)).map IniSection.keys).getD [])
            cfg clearKeys) := by
  refine ⟨?_, ?_, ?_, ?_, ?_⟩
  · intro k v hkv hkc
    unfold saveKeys
    rw [getKey_clearAll_not_mem clearKeys _ hkc]
    exact getKey_writeAll_mem (configUpdates cfg) keys (configUpdates_keys_nodup cfg) hkv
  · intro k hk
    unfold saveKeys
    exact getKey_clearAll_mem clearKeys _ hk
  · intro k hku hkc
    unfold saveKeys
    rw [getKey_clearAll_not_mem clearKeys _ hkc, getKey_writeAll_not_mem (configUpdates cfg) _ hku]
  · intro k hnone
    unfold saveKeys at hnone ⊢
    rw [clearAll_append_one, removeKey_absent hnone]
  · intro file hp
    have hm : matchOrCreateSection file cfg = .ok cfg.profile := by
      unfold matchOrCreateSection
      rw [if_pos hp]
    have hsv : SaveToProfile file cfg clearKeys =
        (if (file.find? (fun s => s.name == cfg.profile)).isSome then
          Except.ok (file.map (fun s =>
            if s.name == cfg.profile then { s with keys := saveKeys s.keys cfg clearKeys }
            else s))
        else Except.ok (file ++ [{ name := cfg.profile, keys := saveKeys [] cfg clearKeys }])) := by
      unfold SaveToProfile
      rw [hm]
    rw [hsv]
    by_cases hf : (file.find? (fun s => s.name == cfg.profile)).isSome
    · rw [if_pos hf]
      obtain ⟨s₀, hs₀⟩ := Option.isSome_iff_exists.mp hf
      have hmem := List.mem_of_find?_eq_some hs₀
      have hname0 := List.find?_some hs₀
      have hname : (s₀.name == cfg.profile) = true := hname0
      refine ⟨_, rfl, { s₀ with keys := saveKeys s₀.keys cfg clearKeys }, ?_, ?_, ?_⟩
      · have hfn : (fun s => if s.name == cfg.profile then
            { s with keys := saveKeys s.keys cfg clearKeys } else s) s₀ =
            { s₀ with keys := saveKeys s₀.keys cfg clearKeys } := by
          simp only [hname, if_true]
        exact hfn ▸ List.mem_map_of_mem _ hmem
      · simpa using hname
      · rw [hs₀]
        rfl
    · rw [if_neg hf]
      refine ⟨_, rfl, { name := cfg.profile, keys := saveKeys [] cfg clearKeys },
        List.mem_append_right _ (List.mem_singleton.mpr rfl), rfl, ?_⟩
      rw [Option.not_isSome_iff_eq_none.mp hf]
      rfl

/-- Witness for C2 at the spec's concrete example: after saving
`{Profile:"abc", Host:"https://foo", Token:"xyz"}` and then merging
`{Host:"https://foo", AuthType:"databricks-cli"}`, the section holds
`host`, `auth_type` and the preserved `token`; clearing a nonexistent key is
a no-op; and saving to a fresh file persists the section. -/
theorem claim_C2_witness :
    getKey (saveKeys [("host", "https://foo"), ("token", "xyz")]
      { host := "https://foo", authType := "databricks-cli" } []) "auth_type" =
        some "databricks-cli" ∧
    getKey (saveKeys [("host", "https://foo"), ("token", "xyz")]
      { host := "https://foo", authType := "databricks-cli" } []) "token" = some "xyz" ∧
    saveKeys [("host", "https://foo")] { host := "https://foo", authType := "databricks-cli" }
        (["token"] ++ ["nonexistent_key"]) =
      saveKeys [("host", "https://foo")] { host := "https://foo", authType := "databricks-cli" }
        ["token"] ∧
    (∃ file', SaveToProfile [] { profile := "abc", host := "https://foo", token := "xyz" } [] =
        .ok file' ∧
      ∃ s ∈ file', s.name = "abc" ∧
        s.keys = saveKeys
          (((([] : List IniSection).find? (fun t => t.name == "abc")).map
            IniSection.keys).getD [])
          { profile := "abc", host := "https://foo", token := "xyz" } []) := by
  refine ⟨?_, ?_, ?_, ?_⟩
  · exact (claim_C2 [("host", "https://foo"), ("token", "xyz")]
      { host := "https://foo", authType := "databricks-cli" } []).1 "auth_type"
      "databricks-cli" (by decide) (by decide)
  · exact ((claim_C2 [("host", "https://foo"), ("token", "xyz")]
      { host := "https://foo", authType := "databricks-cli" } []).2.2.1 "token"
      (by decide) (by decide)).trans (by decide)
  · exact (claim_C2 [("host", "https://foo")]
      { host := "https://foo", authType := "databricks-cli" } ["token"]).2.2.2.1
      "nonexistent_key" (by decide)
  · exact (claim_C2 [] { profile := "abc", host := "https://foo", token := "xyz" } []).2.2.2.2
      [] (by decide)

/-- C5: `matchOrCreateSection` resolves the target section with the precedence
profile name, then single account-ID match, then single canonical-host match;
with neither profile nor host supplied it fails with exactly
"cannot create new profile: empty section name"; and with multiple host
matches it fails with exactly "multiple profiles matched: <name1>, <name2>"
(names joined in stored order). -/
theorem claim_C5 (file : List IniSection) (cfg : Config) :
    (cfg.profile ≠ "" → matchOrCreateSection file cfg = .ok cfg.profile) ∧
    (cfg.profile = "" → cfg.accountID = "" → cfg.host = "" →
      matchOrCreateSection file cfg = .error "cannot create new profile: empty section name") ∧
    (∀ s, cfg.profile = "" → cfg.accountID ≠ "" →
      file.filter (fun t => sectionAccountID t == cfg.accountID) = [s] →
      matchOrCreateSection file cfg = .ok s.name) ∧
    (∀ s, cfg.profile = "" → cfg.accountID = "" → cfg.host ≠ "" →
      file.filter (sectionMatchesHost cfg.host) = [s] →
      matchOrCreateSection file cfg = .ok s.name) ∧
    (∀ s1 s2 rest, cfg.profile = "" → cfg.accountID = "" → cfg.host ≠ "" →
      file.filter (sectionMatchesHost cfg.host) = s1 :: s2 :: rest →
      matchOrCreateSection file cfg =
        .error ("multiple profiles matched: " ++
          String.intercalate ", " ((s1 :: s2 :: rest).map IniSection.name))) := by
  refine ⟨?_, ?_, ?_, ?_, ?_⟩
  · intro hp
    unfold matchOrCreateSection
    rw [if_pos hp]
  · intro hp ha hh
    unfold matchOrCreateSection
    simp [hp, ha, hh]
  · intro s hp ha hacc
    unfold matchOrCreateSection
    simp [hp, ha, hacc]
  · intro s hp ha hh hhost
    unfold matchOrCreateSection
    simp [hp, ha, hh, hhost]
  · intro s1 s2 rest hp ha hh hhost
    unfold matchOrCreateSection
    simp [hp, ha, hh, hhost]

/-- Witness for C5, mirroring the repository's tests: a config with only an
account ID resolves to the matching section by name; a host matching two
stored sections yields the two-name ambiguity error; an empty config yields
the empty-section error. -/
theorem claim_C5_witness :
    matchOrCreateSection
        [⟨"acc", [("host", "https://accounts.cloud.databricks.com"), ("account_id", "abc")]⟩,
         ⟨"foo1", [("host", "https://foo")]⟩, ⟨"foo2", [("host", "https://foo")]⟩]
        { accountID := "abc" } = .ok "acc" ∧
    matchOrCreateSection
        [⟨"acc", [("host", "https://accounts.cloud.databricks.com"), ("account_id", "abc")]⟩,
         ⟨"foo1", [("host", "https://foo")]⟩, ⟨"foo2", [("host", "https://foo")]⟩]
        { host := "https://foo" } = .error "multiple profiles matched: foo1, foo2" ∧
    matchOrCreateSection
        [⟨"acc", [("host", "https://accounts.cloud.databricks.com"), ("account_id", "abc")]⟩,
         ⟨"foo1", [("host", "https://foo")]⟩, ⟨"foo2", [("host", "https://foo")]⟩]
        {} = .error "cannot create new profile: empty section name" := by
  refine ⟨?_, ?_, ?_⟩
  · exact (claim_C5 _ _).2.2.1 ⟨"acc", [("host", "https://accounts.cloud.databricks.com"),
      ("account_id", "abc")]⟩ (by decide) (by decide) (by decide)
  · exact ((claim_C5 _ _).2.2.2.2 ⟨"foo1", [("host", "https://foo")]⟩
      ⟨"foo2", [("host", "https://foo")]⟩ [] (by decide) (by decide) (by decide)
      (by decide)).trans rfl
  · exact (claim_C5 _ _).2.1 (by decide) (by decide) (by decide)

/-! ## Credential strategies (src/libs/auth/credentials.go) -/

/-- A named credential strategy. The names are the SDK strategies' `Name()`
values, pinned by `credentials_test.go`. -/
structure CredentialsStrategy where
  name : String
  deriving Repr, DecidableEq

def PatCredentials : CredentialsStrategy := ⟨"pat"⟩

def BasicCredentials : CredentialsStrategy := ⟨"basic"⟩

def M2mCredentials : CredentialsStrategy := ⟨"oauth-m2m"⟩

def CLICredentialsStrategy : CredentialsStrategy := ⟨"databricks-cli"⟩

def MetadataServiceCredentials : CredentialsStrategy := ⟨"metadata-service"⟩

def GitHubOIDCCredentials : CredentialsStrategy := ⟨"github-oidc"⟩

def AzureDevOpsOIDCCredentials : CredentialsStrategy := ⟨"azure-devops-oidc"⟩

def EnvOIDCCredentials : CredentialsStrategy := ⟨"env-oidc"⟩

def FileOIDCCredentials : CredentialsStrategy := ⟨"file-oidc"⟩

def AzureGithubOIDCCredentials : CredentialsStrategy := ⟨"github-oidc-azure"⟩

def AzureMsiCredentials : CredentialsStrategy := ⟨"azure-msi"⟩

def AzureClientSecretCredentials : CredentialsStrategy := ⟨"azure-client-secret"⟩

def AzureCliCredentials : CredentialsStrategy := ⟨"azure-cli"⟩

def GoogleCredentials : CredentialsStrategy := ⟨"google-credentials"⟩

def GoogleDefaultCredentials : CredentialsStrategy := ⟨"google-id"⟩

/-- The CLI's credential chain, in source order. -/
def credentialChain : List CredentialsStrategy :=
  [PatCredentials,
   BasicCredentials,
   M2mCredentials,
   CLICredentialsStrategy,
   MetadataServiceCredentials,
   GitHubOIDCCredentials,
   AzureDevOpsOIDCCredentials,
   EnvOIDCCredentials,
   FileOIDCCredentials,
   AzureGithubOIDCCredentials,
   AzureMsiCredentials,
   AzureClientSecretCredentials,
   AzureCliCredentials,
   GoogleCredentials,
   GoogleDefaultCredentials]

/-- C7: the credential chain is the fixed ordered sequence pat, basic,
oauth-m2m, databricks-cli, metadata-service, github-oidc, azure-devops-oidc,
env-oidc, file-oidc, github-oidc-azure, azure-msi, azure-client-secret,
azure-cli, google-credentials, google-id; in particular pat strictly precedes
databricks-cli. -/
theorem claim_C7 :
    credentialChain.map CredentialsStrategy.name =
      ["pat", "basic", "oauth-m2m", "databricks-cli", "metadata-service", "github-oidc",
       "azure-devops-oidc", "env-oidc", "file-oidc", "github-oidc-azure", "azure-msi",
       "azure-client-secret", "azure-cli", "google-credentials", "google-id"] ∧
    (credentialChain.map CredentialsStrategy.name).indexOf "pat" <
      (credentialChain.map CredentialsStrategy.name).indexOf "databricks-cli" := by
  constructor
  · rfl
  · decide

/-! ## Auth arguments and the CLI OAuth-bridging strategy -/

/-- The normalized target identity built from flags/env/profile. -/
structure AuthArguments where
  host : String := ""
  accountID : String := ""
  workspaceID : String := ""
  isUnifiedHost : Bool := false
  profile : String := ""
  deriving Repr, DecidableEq

/-- The three mutually exclusive OAuth target variants. -/
inductive OAuthArgument where
  | workspace (host : String)
  | account (host accountID : String)
  | unified (host accountID workspaceID : String)
  deriving Repr, DecidableEq

/-- The hostname part of a host string (scheme/path/query stripped, without
the "https://" re-prefixing). -/
def hostnameOf (s : String) : String := String.mk (takeHostname (dropScheme s.data))

/-- Modelled from the spec: the SDK's host classification (not under src/) —
a hostname beginning with "accounts." or "accounts-dod." is an account host. -/
def isAccountHostname (h : String) : Bool :=
  List.isPrefixOf "accounts.".data h.data || List.isPrefixOf "accounts-dod.".data h.data

/-- Modelled from the spec: `AuthArguments.ToOAuthArgument` (not under src/)
converts the normalized identity to exactly one of the three mutually
exclusive OAuthArgument variants: Workspace (host only), Account
(host+accountID), Unified (host+accountID, optionally workspaceID). -/
def AuthArguments.ToOAuthArgument (a : AuthArguments) : Except String OAuthArgument :=
  if a.host = "" then .error "no host provided"
  else if a.isUnifiedHost then .ok (.unified a.host a.accountID a.workspaceID)
  else if isAccountHostname (hostnameOf a.host) then .ok (.account a.host a.accountID)
  else .ok (.workspace a.host)

/-- Builds `AuthArguments` from a resolved configuration
(`authArgumentsFromConfig` in credentials.go). -/
def authArgumentsFromConfig (cfg : Config) : AuthArguments :=
  { host := cfg.host, accountID := cfg.accountID, workspaceID := cfg.workspaceID,
    isUnifiedHost := cfg.isUnifiedHost, profile := cfg.profile }

/-- The observable behaviour of the provider built by
`CLICredentials.Configure`: which OAuth argument scopes the persistent token
source, and whether the caching layer refreshes asynchronously. -/
structure ProviderSpec where
  oauthArg : OAuthArgument
  asyncRefresh : Bool
  deriving Repr, DecidableEq

/-- `CLICredentials.Configure` from credentials.go: requires a non-empty host,
builds the OAuth argument from the config, and wraps the persistent token
source in a caching layer with optional async refresh. -/
def CLICredentialsConfigure (cfg : Config) : Except String ProviderSpec :=
  if cfg.host = "" then .error "no host provided"
  else
    match (authArgumentsFromConfig cfg).ToOAuthArgument with
    | .error e => .error e
    | .ok arg => .ok { oauthArg := arg, asyncRefresh := !cfg.disableOAuthRefreshToken }

/-- C10: `CLICredentials.Configure` never reads the `scopes` field — for any
two configs identical except for `scopes`, it builds the same auth arguments
and returns an identical provider specification. -/
theorem claim_C10 (cfg : Config) (s : List String) :
    authArgumentsFromConfig { cfg with scopes := s } = authArgumentsFromConfig cfg ∧
    CLICredentialsConfigure { cfg with scopes := s } = CLICredentialsConfigure cfg := by
  exact ⟨rfl, rfl⟩

/-! ## Error model and auth-error enrichment (src/libs/auth) -/

/-- Go-style errors as observed by this core: structured API errors, the
SDK's invalid-refresh-token and cache-miss conditions, plain errors, and
wrapping (fmt.Errorf with %w), which preserves the inner error for
errors.As/errors.Is–style unwrapping. -/
inductive GoError where
  | api (statusCode : Nat) (errorCode message : String)
  | cacheNotFound (msg : String)
  | invalidRefreshToken (msg : String)
  | plain (msg : String)
  | wrap (text : String) (inner : GoError)
  deriving Repr, DecidableEq

/-- The display text of an error (Go's `Error()`). -/
def GoError.errString : GoError → String
  | .api _ _ message => message
  | .cacheNotFound msg => msg
  | .invalidRefreshToken msg => msg
  | .plain msg => msg
  | .wrap text _ => text

/-- `errors.As(err, **apierr.APIError)`: unwraps to the structured API error,
if any. -/
def GoError.asAPIError : GoError → Option (Nat × String × String)
  | .api s c m => some (s, c, m)
  | .wrap _ inner => inner.asAPIError
  | _ => none

/-- `errors.As(err, **u2m.InvalidRefreshTokenError)`. -/
def GoError.isInvalidRefreshToken : GoError → Bool
  | .invalidRefreshToken _ => true
  | .wrap _ inner => inner.isInvalidRefreshToken
  | _ => false

/-- `errors.Is(err, cache.ErrNotFound)`. -/
def GoError.isCacheNotFound : GoError → Bool
  | .cacheNotFound _ => true
  | .wrap _ inner => inner.isCacheNotFound
  | _ => false

/-- ASCII lowercasing (Go's `strings.ToLower` for the identifiers used here),
written structurally over the character list. -/
def toLowerStr (s : String) : String := String.mk (s.data.map Char.toLower)

/-- Human-readable names for auth type identifiers; unrecognized identifiers
fall back to the raw value. -/
def AuthTypeDisplayName (authType : String) : String :=
  let t := toLowerStr authType
  if t = "databricks-cli" then "OAuth (databricks-cli)"
  else if t = "pat" then "Personal Access Token (pat)"
  else if t = "basic" then "Basic"
  else if t = "azure-cli" then "Azure CLI (azure-cli)"
  else if t = "oauth-m2m" then "OAuth Machine-to-Machine (oauth-m2m)"
  else if t = "azure-msi" then "Azure Managed Identity (azure-msi)"
  else if t = "azure-client-secret" then "Azure Client Secret (azure-client-secret)"
  else if t = "google-credentials" then "Google Credentials (google-credentials)"
  else if t = "google-id" then "Google Default Credentials (google-id)"
  else if t = "github-oidc-azure" then "GitHub OIDC for Azure (github-oidc-azure)"
  else if t = "metadata-service" then "Metadata Service (metadata-service)"
  else authType

/-- Builds the login command for the given OAuth argument or profile. -/
def BuildLoginCommand (profileName : String) (arg : OAuthArgument) : String :=
  if profileName ≠ "" then "databricks auth login --profile " ++ profileName
  else
    match arg with
    | .unified host accountID _ =>
        "databricks auth login --host " ++ host ++ " --account-id " ++ accountID ++
          " --experimental-is-unified-host"
    | .account host accountID =>
        "databricks auth login --host " ++ host ++ " --account-id " ++ accountID
    | .workspace host => "databricks auth login --host " ++ host

/-- Builds the describe command for the given config. -/
def BuildDescribeCommand (cfg : Config) : String :=
  if cfg.profile ≠ "" then "databricks auth describe --profile " ++ cfg.profile
  else "databricks auth describe"

/-- Auth-type-aware re-authentication suggestions for 401 errors
(`writeReauthSteps`). -/
def writeReauthSteps (cfg : Config) : String :=
  let t := toLowerStr cfg.authType
  if t = "databricks-cli" then
    if cfg.profile ≠ "" then
      "\n  - Re-authenticate: databricks auth login --profile " ++ cfg.profile
    else
      match AuthArguments.ToOAuthArgument
          { host := cfg.host, accountID := cfg.accountID, workspaceID := cfg.workspaceID,
            isUnifiedHost := cfg.isUnifiedHost } with
      | .error _ => "\n  - Re-authenticate: databricks auth login"
      | .ok arg =>
          let loginCmd := BuildLoginCommand "" arg
          let loginCmd :=
            if cfg.isUnifiedHost ∧ cfg.workspaceID ≠ "" then
              loginCmd ++ " --workspace-id " ++ cfg.workspaceID
            else loginCmd
          "\n  - Re-authenticate: " ++ loginCmd
  else if t = "pat" then
    if cfg.profile ≠ "" then
      "\n  - Regenerate your access token or run: databricks configure --profile " ++ cfg.profile
    else "\n  - Regenerate your access token"
  else if t = "basic" then
    if cfg.profile ≠ "" then
      "\n  - Check your username/password or run: databricks configure --profile " ++ cfg.profile
    else "\n  - Check your username and password"
  else if t = "azure-cli" then "\n  - Re-authenticate with Azure: az login"
  else if t = "oauth-m2m" then "\n  - Check your service principal client ID and secret"
  else "\n  - Check your authentication credentials"

/-- `EnrichAuthError`: appends identity context and remediation steps to
401/403 API errors; all other errors pass through unchanged. -/
def EnrichAuthError (cfg : Config) (err : GoError) : GoError :=
  match err.asAPIError with
  | none => err
  | some (statusCode, _, _) =>
    if statusCode ≠ 401 ∧ statusCode ≠ 403 then err
    else
      let b :=
        (if cfg.profile ≠ "" then "\nProfile:   " ++ cfg.profile else "") ++
        (if cfg.host ≠ "" then "\nHost:      " ++ cfg.host else "") ++
        (if cfg.authType ≠ "" then "\nAuth type: " ++ AuthTypeDisplayName cfg.authType else "") ++
        "\n\nNext steps:" ++
        (if statusCode = 401 then writeReauthSteps cfg
         else "\n  - Verify you have the required permissions for this operation") ++
        "\n  - Check your identity: " ++ BuildDescribeCommand cfg ++
        (if cfg.profile = "" then
          "\n  - Consider configuring a profile: databricks configure --profile <name>"
         else "")
      .wrap (err.errString ++ "\n" ++ b) err

/-- C8: `EnrichAuthError` returns its input unchanged unless it is a
structured API error with status 401 or 403; for those it only extends the
display text by wrapping, and the original API error (status code, error
code) remains retrievable by unwrapping. -/
theorem claim_C8 (cfg : Config) (err : GoError) :
    (err.asAPIError = none → EnrichAuthError cfg err = err) ∧
    (∀ s c m, err.asAPIError = some (s, c, m) → s ≠ 401 → s ≠ 403 →
      EnrichAuthError cfg err = err) ∧
    (∀ s c m, err.asAPIError = some (s, c, m) → s = 401 ∨ s = 403 →
      (∃ text, EnrichAuthError cfg err = .wrap text err) ∧
        (EnrichAuthError cfg err).asAPIError = some (s, c, m)) := by
  refine ⟨?_, ?_, ?_⟩
  · intro hnone
    unfold EnrichAuthError
    rw [hnone]
  · intro s c m hsome h401 h403
    unfold EnrichAuthError
    rw [hsome]
    simp [h401, h403]
  · intro s c m hsome hs
    have hcond : ¬(s ≠ 401 ∧ s ≠ 403) := by
      rcases hs with rfl | rfl <;> simp
    have hwrap : ∃ text, EnrichAuthError cfg err = .wrap text err := by
      unfold EnrichAuthError
      simp only [hsome]
      rw [if_neg hcond]
      exact ⟨_, rfl⟩
    obtain ⟨text, htext⟩ := hwrap
    refine ⟨⟨text, htext⟩, ?_⟩
    rw [htext]
    show err.asAPIError = some (s, c, m)
    exact hsome

/-- Witness for C8, mirroring the repository's tests: a plain error and a 404
API error pass through unchanged, and a 403 API error is enriched while its
status and error code remain retrievable by unwrapping. -/
theorem claim_C8_witness :
    EnrichAuthError { profile := "test", host := "https://example.com" }
      (GoError.plain "some random error") = GoError.plain "some random error" ∧
    EnrichAuthError { profile := "test", host := "https://example.com" }
      (GoError.api 404 "" "not found") = GoError.api 404 "" "not found" ∧
    (∃ text,
      EnrichAuthError { host := "https://example.com", authType := "pat" }
          (GoError.api 403 "PERMISSION_DENIED" "User does not have permission") =
        GoError.wrap text
          (GoError.api 403 "PERMISSION_DENIED" "User does not have permission")) ∧
    (EnrichAuthError { host := "https://example.com", authType := "pat" }
        (GoError.api 403 "PERMISSION_DENIED" "User does not have permission")).asAPIError =
      some (403, "PERMISSION_DENIED", "User does not have permission") := by
  refine ⟨?_, ?_, ?_, ?_⟩
  · exact (claim_C8 { profile := "test", host := "https://example.com" }
      (GoError.plain "some random error")).1 rfl
  · exact (claim_C8 { profile := "test", host := "https://example.com" }
      (GoError.api 404 "" "not found")).2.1 404 "" "not found" rfl
      (by decide) (by decide)
  · exact ((claim_C8 { host := "https://example.com", authType := "pat" }
      (GoError.api 403 "PERMISSION_DENIED" "User does not have permission")).2.2
      403 "PERMISSION_DENIED" "User does not have permission" rfl (Or.inr rfl)).1
  · exact ((claim_C8 { host := "https://example.com", authType := "pat" }
      (GoError.api 403 "PERMISSION_DENIED" "User does not have permission")).2.2
      403 "PERMISSION_DENIED" "User does not have permission" rfl (Or.inr rfl)).2

/-! ## Token resolution (src/cmd/auth/token.go) -/

/-- The outcome of a resolution step: success, a terminal error, or control
passing to an interactive prompt (the prompt itself is not modelled). -/
inductive Outcome (α : Type) where
  | ok (val : α)
  | err (msg : String)
  | prompt
  deriving Repr, DecidableEq

/-- The profile store as seen by the resolver: the stored profiles in file
order, plus the config file path reported by `GetPath`. -/
structure Profiler where
  profiles : List Profile := []
  path : String := ""
  deriving Repr, DecidableEq

/-- `LoadProfiles`: the stored profiles satisfying the match function, in
stored order. -/
def LoadProfiles (pr : Profiler) (fn : Profile → Bool) : List Profile :=
  pr.profiles.filter fn

/-- Modelled from the spec: `loadProfileByName` (not under src/) resolves a
name to the stored profile with that name; an empty name never matches. -/
def loadProfileByName (pr : Profiler) (name : String) : Option Profile :=
  if name = "" then none else (pr.profiles.filter (WithName name)).head?

/-- `applyUnifiedHostFlags`: copies unified-host fields from the profile into
the auth arguments only where not already set. -/
def applyUnifiedHostFlags (p : Option Profile) (a : AuthArguments) : AuthArguments :=
  match p with
  | none => a
  | some p =>
    let a1 :=
      if !a.isUnifiedHost && p.isUnifiedHost then { a with isUnifiedHost := p.isUnifiedHost }
      else a
    if a1.workspaceID = "" ∧ p.workspaceID ≠ "" then { a1 with workspaceID := p.workspaceID }
    else a1

/-- The environment variables consumed by token resolution. -/
structure Env where
  host : String := ""
  accountID : String := ""
  workspaceID : String := ""
  isUnifiedHost : Bool := false
  configProfile : String := ""
  deriving Repr, DecidableEq

/-- Modelled from the spec: `setHostAndAccountId` (not under src/) — when a
profile is resolved the host (and account ID) are read from it; otherwise the
host is accepted from the remaining positional value; with nothing available
the user is prompted (interactive only). -/
def setHostAndAccountId (existing : Option Profile) (a : AuthArguments) (args : List String) :
    Outcome AuthArguments :=
  if a.host ≠ "" then .ok a
  else
    match existing with
    | some p =>
      if p.host ≠ "" then
        .ok { a with host := p.host,
                     accountID := if a.accountID = "" then p.accountID else a.accountID }
      else .prompt
    | none =>
      match args with
      | arg :: _ => .ok { a with host := arg }
      | [] => .prompt

/-- `resolveNoArgsToken`: environment/interactive fallback when no profile,
host, or positional argument is known. -/
def resolveNoArgsToken (env : Env) (interactive : Bool) (pr : Profiler) (a : AuthArguments) :
    Outcome (String × Option Profile × AuthArguments) :=
  if env.host ≠ "" then
    let a1 := { a with host := env.host }
    let a2 := if env.accountID ≠ "" then { a1 with accountID := env.accountID } else a1
    let a3 := if env.workspaceID ≠ "" then { a2 with workspaceID := env.workspaceID } else a2
    let a4 := if env.isUnifiedHost then { a3 with isUnifiedHost := true } else a3
    .ok ("", none, a4)
  else if env.configProfile ≠ "" then
    .ok (env.configProfile, loadProfileByName pr env.configProfile, a)
  else if !interactive then
    if (LoadProfiles pr MatchAllProfiles).length > 0 then
      .err "no profile specified. Use --profile <name> to specify which profile to use"
    else
      .err "no profiles configured. Run 'databricks auth login' to create a profile"
  else .prompt

/-- The host-classified match predicate used by the host→profile scan: host
plus account ID for account/unified hosts, canonical host only for workspace
hosts. -/
def tokenMatchFn (a : AuthArguments) : Profile → Bool :=
  if a.isUnifiedHost || isAccountHostname (hostnameOf a.host) then
    WithHostAndAccountID a.host a.accountID
  else
    WithHost a.host

/-- The host→profile resolution branch of `loadToken` (token.go:172–216): when
no profile was specified but a host is known, scan the profile store with the
classified predicate; ambiguity is surfaced, a unique match is adopted, and
zero matches fall back to a host-keyed lookup. -/
def resolveHostToProfile (interactive : Bool) (pr : Profiler) (profileName : String)
    (existing : Option Profile) (a : AuthArguments) : Outcome (String × Option Profile) :=
  if profileName = "" ∧ a.host ≠ "" then
    let matchingProfiles := LoadProfiles pr (tokenMatchFn a)
    if matchingProfiles.length > 1 then
      if pr.path = "" then
        .err "panic: configPath is empty but LoadProfiles returned multiple profiles"
      else if !interactive then
        .err (String.intercalate " and " (matchingProfiles.map Profile.name) ++ " match " ++
          a.host ++ " in " ++ pr.path ++ ". Use --profile to specify which profile to use")
      else .prompt
    else
      match matchingProfiles with
      | [p] => .ok (p.name, some p)
      | _ => .ok (profileName, existing)
  else .ok (profileName, existing)

/-- The final identity resolved by `loadToken` before the token fetch. -/
structure ResolvedAuth where
  profileName : String
  auth : AuthArguments
  deriving Repr, DecidableEq

/-- The resolution front half of `loadToken`: flag/argument validation,
positional-argument-as-profile resolution, environment/interactive fallback,
host acquisition, host→profile matching, and the M2M check. -/
def loadTokenResolve (env : Env) (interactive : Bool) (pr : Profiler)
    (profileName0 : String) (args0 : List String) (auth0 : AuthArguments) :
    Outcome ResolvedAuth :=
  if profileName0 ≠ "" ∧ args0.length > 0 then
    .err "providing both a profile and host is not supported"
  else
    let step2 : String × List String :=
      match args0 with
      | [arg] =>
        if profileName0 = "" ∧ (loadProfileByName pr arg).isSome then (arg, [])
        else (profileName0, args0)
      | _ => (profileName0, args0)
    let profileName1 := step2.1
    let args1 := step2.2
    let existing1 := loadProfileByName pr profileName1
    let auth1 := applyUnifiedHostFlags existing1 auth0
    let step4 : Outcome (String × Option Profile × AuthArguments) :=
      if profileName1 = "" ∧ auth1.host = "" ∧ args1 = [] then
        match resolveNoArgsToken env interactive pr auth1 with
        | .ok (rp, ep, a2) => .ok (rp, ep, applyUnifiedHostFlags ep a2)
        | .err m => .err m
        | .prompt => .prompt
      else .ok (profileName1, existing1, auth1)
    match step4 with
    | .err m => .err m
    | .prompt => .prompt
    | .ok (profileName2, existing2, auth2) =>
      match setHostAndAccountId existing2 auth2 args1 with
      | .err m => .err m
      | .prompt => .prompt
      | .ok auth3 =>
        match resolveHostToProfile interactive pr profileName2 existing2 auth3 with
        | .err m => .err m
        | .prompt => .prompt
        | .ok (profileName3, existing3) =>
          match existing3 with
          | some p =>
            if p.hasClientCredentials then
              .err ("profile \"" ++ profileName3 ++
                "\" uses M2M authentication (client_id/client_secret). `databricks auth token` only supports U2M (user-to-machine) authentication tokens. To authenticate as a service principal, use the Databricks SDK directly")
            else
              .ok { profileName := profileName3, auth := { auth3 with profile := profileName3 } }
          | none =>
            .ok { profileName := profileName3, auth := { auth3 with profile := profileName3 } }

/-! ## Token fetch failure handling (token.go:243–262) -/

/-- The generic remediation suffix appended to token fetch failures. -/
def helpfulError (profileName : String) (arg : OAuthArgument) : String :=
  "Try logging in again with `" ++ BuildLoginCommand profileName arg ++
    "` before retrying. If this fails, please report this issue to the Databricks CLI maintainers at https://github.com/databricks/cli/issues/new"

/-- `RewriteAuthError`: rewrites the invalid-refresh-token failure into an
actionable reauthentication command; returns whether it rewrote the error. -/
def RewriteAuthError (host accountID profileName : String) (err : GoError) : Bool × GoError :=
  if err.isInvalidRefreshToken then
    match AuthArguments.ToOAuthArgument { host := host, accountID := accountID } with
    | .error e => (false, .plain e)
    | .ok arg =>
      (true, .plain
        ("A new access token could not be retrieved because the refresh token is invalid. To reauthenticate, run the following command:\n  $ " ++
          BuildLoginCommand profileName arg))
  else (false, err)

/-- An OAuth bearer token. -/
structure Token where
  accessToken : String := ""
  tokenType : String := ""
  deriving Repr, DecidableEq

/-- The tail of `loadToken`: the single token fetch result is mapped to the
final outcome — a cache miss is normalized to the fixed compatibility string,
an invalid refresh token is rewritten to a reauthentication command, and any
other failure gets the generic remediation suffix; all failures are terminal. -/
def completeTokenFetch (host accountID profileName : String) (arg : OAuthArgument)
    (fetchResult : Except GoError Token) : Except String Token :=
  match fetchResult with
  | .ok t => .ok t
  | .error e0 =>
    let e :=
      if e0.isCacheNotFound then
        GoError.plain "cache: databricks OAuth is not configured for this host"
      else e0
    match RewriteAuthError host accountID profileName e with
    | (true, rewritten) => .error rewritten.errString
    | (false, _) => .error (e.errString ++ ". " ++ helpfulError profileName arg)

/-- C4: when the persistent token cache reports that no entry exists for the
target host, token resolution fails with a message beginning with exactly
"cache: databricks OAuth is not configured for this host" followed by the
generic remediation suffix; the single fetch result is final (no retry). -/
theorem claim_C4 (host accountID profileName msg : String) (arg : OAuthArgument) :
    completeTokenFetch host accountID profileName arg (.error (.cacheNotFound msg)) =
      .error ("cache: databricks OAuth is not configured for this host" ++ ". " ++
        helpfulError profileName arg) := by
  rfl

/-- C3: whenever the `--profile` flag is non-empty and at least one positional
argument is given, token resolution fails with exactly
"providing both a profile and host is not supported". -/
theorem claim_C3 (env : Env) (interactive : Bool) (pr : Profiler) (profileName : String)
    (args : List String) (auth0 : AuthArguments) (hp : profileName ≠ "") (ha : args ≠ []) :
    loadTokenResolve env interactive pr profileName args auth0 =
      .err "providing both a profile and host is not supported" := by
  unfold loadTokenResolve
  rw [if_pos ⟨hp, List.length_pos.mpr ha⟩]

/-- Witness for C3, mirroring the test "profile flag + positional non-host arg
still errors". -/
theorem claim_C3_witness :
    loadTokenResolve {} false
      { profiles := [{ name := "active", host := "https://accounts.cloud.databricks.com",
                       accountID := "active" },
                     { name := "workspace-a", host := "https://workspace-a.cloud.databricks.com" }],
        path := "<in memory>" }
      "active" ["workspace-a"] {} =
      .err "providing both a profile and host is not supported" :=
  claim_C3 {} false
    { profiles := [{ name := "active", host := "https://accounts.cloud.databricks.com",
                     accountID := "active" },
                   { name := "workspace-a", host := "https://workspace-a.cloud.databricks.com" }],
      path := "<in memory>" }
    "active" ["workspace-a"] {} (by decide) (by decide)

/-- C1: with no explicitly resolved profile but a known host, the resolver
classifies the host (account/unified hosts match on host plus account ID,
workspace hosts on canonical host only) and scans the stored profiles; zero
matches proceed host-keyed (no profile), exactly one match is adopted as the
resolved profile, and more than one match fails non-interactively with exactly
"<name1> and <name2> match <host> in <config-file-path>. Use --profile to
specify which profile to use" (stored order, joined with " and "). -/
theorem claim_C1 (env : Env) (pr : Profiler) (auth0 : AuthArguments)
    (hh : auth0.host ≠ "") (hpath : pr.path ≠ "")
    (hm2m : ∀ p ∈ pr.profiles, p.hasClientCredentials = false) :
    (∀ p, (auth0.isUnifiedHost || isAccountHostname (hostnameOf auth0.host)) = true →
      (tokenMatchFn auth0 p = true ↔
        p.host ≠ "" ∧ canonicalizeHost p.host = canonicalizeHost auth0.host ∧
          p.accountID = auth0.accountID)) ∧
    (∀ p, (auth0.isUnifiedHost || isAccountHostname (hostnameOf auth0.host)) = false →
      (tokenMatchFn auth0 p = true ↔
        p.host ≠ "" ∧ canonicalizeHost p.host = canonicalizeHost auth0.host)) ∧
    loadTokenResolve env false pr "" [] auth0 =
      (match pr.profiles.filter (tokenMatchFn auth0) with
       | [] => .ok { profileName := "", auth := { auth0 with profile := "" } }
       | [p] => .ok { profileName := p.name, auth := { auth0 with profile := p.name } }
       | ms => .err (String.intercalate " and " (ms.map Profile.name) ++ " match " ++
           auth0.host ++ " in " ++ pr.path ++
           ". Use --profile to specify which profile to use")) := by
  refine ⟨?_, ?_, ?_⟩
  · intro p hcase
    simp [tokenMatchFn, hcase, WithHostAndAccountID, Bool.and_eq_true, bne_iff_ne,
      beq_iff_eq, and_assoc]
  · intro p hcase
    simp [tokenMatchFn, hcase, WithHost, Bool.and_eq_true, bne_iff_ne, beq_iff_eq]
  · rcases hfil : pr.profiles.filter (tokenMatchFn auth0) with _ | ⟨p, _ | ⟨q, rest⟩⟩
    · simp [loadTokenResolve, loadProfileByName, applyUnifiedHostFlags, setHostAndAccountId,
        resolveHostToProfile, LoadProfiles, hfil, hh, hpath]
    · have hpmem : p ∈ pr.profiles := by
        have hp : p ∈ pr.profiles.filter (tokenMatchFn auth0) := by
          rw [hfil]
          exact List.mem_singleton_self _
        exact (List.mem_filter.mp hp).1
      have hpcc : p.hasClientCredentials = false := hm2m p hpmem
      simp [loadTokenResolve, loadProfileByName, applyUnifiedHostFlags, setHostAndAccountId,
        resolveHostToProfile, LoadProfiles, hfil, hh, hpath, hpcc]
    · simp [loadTokenResolve, loadProfileByName, applyUnifiedHostFlags, setHostAndAccountId,
        resolveHostToProfile, LoadProfiles, hfil, hh, hpath]

/-- Witness for C1, mirroring the tests: two stored profiles on the shared
workspace host produce the exact two-name ambiguity error; a unique host
match is adopted as the profile; an unmatched host proceeds host-keyed with
no profile. -/
theorem claim_C1_witness :
    loadTokenResolve {} false
        { profiles := [{ name := "dup1", host := "https://shared.cloud.databricks.com" },
                       { name := "dup2", host := "https://shared.cloud.databricks.com" },
                       { name := "unique-ws", host := "https://unique-ws.cloud.databricks.com" }],
          path := "<in memory>" }
        "" [] { host := "https://shared.cloud.databricks.com" } =
      .err "dup1 and dup2 match https://shared.cloud.databricks.com in <in memory>. Use --profile to specify which profile to use" ∧
    loadTokenResolve {} false
        { profiles := [{ name := "dup1", host := "https://shared.cloud.databricks.com" },
                       { name := "dup2", host := "https://shared.cloud.databricks.com" },
                       { name := "unique-ws", host := "https://unique-ws.cloud.databricks.com" }],
          path := "<in memory>" }
        "" [] { host := "https://unique-ws.cloud.databricks.com" } =
      .ok { profileName := "unique-ws",
            auth := { host := "https://unique-ws.cloud.databricks.com", profile := "unique-ws" } } ∧
    loadTokenResolve {} false
        { profiles := [{ name := "dup1", host := "https://shared.cloud.databricks.com" },
                       { name := "dup2", host := "https://shared.cloud.databricks.com" },
                       { name := "unique-ws", host := "https://unique-ws.cloud.databricks.com" }],
          path := "<in memory>" }
        "" [] { host := "https://no-profile.cloud.databricks.com" } =
      .ok { profileName := "",
            auth := { host := "https://no-profile.cloud.databricks.com", profile := "" } } := by
  refine ⟨?_, ?_, ?_⟩
  · exact ((claim_C1 {} _ { host := "https://shared.cloud.databricks.com" }
      (by decide) (by decide) (by decide)).2.2).trans (by decide)
  · exact ((claim_C1 {} _ { host := "https://unique-ws.cloud.databricks.com" }
      (by decide) (by decide) (by decide)).2.2).trans (by decide)
  · exact ((claim_C1 {} _ { host := "https://no-profile.cloud.databricks.com" }
      (by decide) (by decide) (by decide)).2.2).trans (by decide)

end DatabricksCLI
